import Mathlib

/-!
Shallow embedding of the M31-Agent completion orchestrator and its
collaborators, translated from the TypeScript sources:

* `src/services/telemetry/telemetryService.ts` — the telemetry batcher
  (`trackEvent`, `flush`, session-id injection, batch-size flushing);
* `src/services/ai/completionService.ts` — the completion service
  (result cache with TTL and batch eviction, context-window/prompt
  construction, the completion request path);
* `src/services/ai/agentService.ts` — the agent layer (session-tracking
  envelope around completions and the one-shot commands).

Machine integers are modelled as `Nat` (timestamps are millisecond
counts), JS `Map` as an association list with distinct keys (the `Map`
type itself guarantees key uniqueness; theorems that need it take the
`Nodup` invariant as a hypothesis), and the fallible network client as an
explicit outcome parameter (`ApiOutcome`): `ok` models a response with
`success = true`, `err` a response with `success = false`, and `exn` an
exception raised by the call.  Wall-clock reads (`Date.now()`) are an
explicit `now : Nat` argument.
-/

namespace M31

/-- Telemetry event types used by the services (other variants of the
source enum are collapsed into `other`). -/
inductive TelemetryEventType where
  | codeCompleted
  | featureUsed
  | modelChanged
  | errorOccurred
  | performanceMetric
  | other (name : String)
deriving DecidableEq, Repr

/-- A telemetry event.  The source stores free-form `properties` /
`measurements` maps; here the fields the services actually write are
modelled: the `success` and `fromCache` flags and the `feature` name
become optional fields, and the remaining enrichment properties
(extension version, editor version, OS) are kept as a key/value list. -/
structure TelemetryEvent where
  type : TelemetryEventType
  timestamp : Nat
  sessionId : String
  success : Option Bool := none
  fromCache : Option Bool := none
  feature : Option String := none
  extraProps : List (String × String) := []
deriving DecidableEq, Repr

/-- State of `TelemetryService`: the fields `trackEvent`/`flush` read or
write.  `sessionId` is generated once in the constructor (`uuidv4()`). -/
structure TelemetryState where
  sessionId : String
  isEnabled : Bool
  pendingEvents : List TelemetryEvent
  extensionVersion : String
  vscodeVersion : String
  osInfo : String
deriving DecidableEq, Repr

def EVENTS_BATCH_SIZE : Nat := 20

def FLUSH_INTERVAL_MS : Nat := 60000

/-- Event enrichment performed at the top of `trackEvent`: the spread
`{...event, timestamp: event.timestamp || Date.now(), sessionId:
this.sessionId, properties: {...}}`.  JS `||` replaces a `0` timestamp
(falsy) by `Date.now()`; the service's own `sessionId` overrides whatever
the caller put on the event. -/
def enrichEvent (s : TelemetryState) (e : TelemetryEvent) (now : Nat) : TelemetryEvent :=
  { e with
    timestamp := if e.timestamp = 0 then now else e.timestamp
    sessionId := s.sessionId
    extraProps := e.extraProps ++
      [("extensionVersion", s.extensionVersion),
       ("vscodeVersion", s.vscodeVersion),
       ("os", s.osInfo)] }

/-- `TelemetryService.flush`.  `deliveryOk = false` models the `try`
body raising (the delivery attempt failing); the result's second
component is the list of events delivered by this call.

The source's `catch` block reads

  `this.pendingEvents = [...this.pendingEvents];`

i.e. it reassigns the (already cleared) buffer to a copy of itself and
does NOT put `eventsToSend` back, although the comment above that line
says "Add the events back to the queue".  The embedding reproduces that
behaviour literally. -/
def flush (s : TelemetryState) (deliveryOk : Bool) :
    TelemetryState × List TelemetryEvent :=
  if !s.isEnabled || s.pendingEvents.isEmpty then (s, [])
  else
    let eventsToSend := s.pendingEvents
    let cleared : TelemetryState := { s with pendingEvents := [] }
    if deliveryOk then (cleared, eventsToSend)
    else ({ cleared with pendingEvents := cleared.pendingEvents }, [])

/-- A sequence of `flush` calls (e.g. the periodic timer firing
repeatedly), accumulating everything delivered. -/
def flushSeq (s : TelemetryState) (oks : List Bool) :
    TelemetryState × List TelemetryEvent :=
  oks.foldl (fun acc ok =>
    let r := flush acc.1 ok
    (r.1, acc.2 ++ r.2)) (s, [])

/-- `TelemetryService.trackEvent`: no-op when disabled; otherwise enrich,
append to the pending buffer, and flush immediately when the buffer has
reached `EVENTS_BATCH_SIZE`.  The `flush` call inside `trackEvent` runs
synchronously (the async body contains no `await`), so its effect is
visible when `trackEvent` returns. -/
def trackEvent (s : TelemetryState) (e : TelemetryEvent) (now : Nat)
    (deliveryOk : Bool) : TelemetryState × List TelemetryEvent :=
  if !s.isEnabled then (s, [])
  else
    let s1 : TelemetryState :=
      { s with pendingEvents := s.pendingEvents ++ [enrichEvent s e now] }
    if EVENTS_BATCH_SIZE ≤ s1.pendingEvents.length then flush s1 deliveryOk
    else (s1, [])

/-! ### Result cache (`CompletionService.completionCache`) -/

/-- A cache entry: `{ result: string, timestamp: number }`. -/
structure CacheEntry where
  result : String
  timestamp : Nat
deriving DecidableEq, Repr

/-- The JS `Map<string, CacheEntry>` as an insertion-ordered association
list; a real `Map` never holds two entries with the same key. -/
abbrev Cache := List (String × CacheEntry)

def CACHE_TTL_MS : Nat := 60000

/-- `Map.prototype.get`. -/
def mapGet (c : Cache) (k : String) : Option CacheEntry :=
  (c.find? (fun p => p.1 == k)).map (fun p => p.2)

/-- `Map.prototype.set`: update in place when the key is present
(preserving insertion order), otherwise append. -/
def mapSet (c : Cache) (k : String) (e : CacheEntry) : Cache :=
  if c.any (fun p => p.1 == k) then
    c.map (fun p => if p.1 == k then (k, e) else p)
  else c ++ [(k, e)]

/-- `Map.prototype.delete` (on a map with distinct keys, removing the
entry with key `k` is filtering it out). -/
def mapDelete (c : Cache) (k : String) : Cache :=
  c.filter (fun p => p.1 != k)

/-- `CompletionService.getFromCache`: return the entry's result when it
is younger than the TTL; an expired entry is removed as a side effect.
The returned cache is the post-call state of the `Map`. -/
def getFromCache (c : Cache) (k : String) (now : Nat) : Option String × Cache :=
  match mapGet c k with
  | some e =>
      if now - e.timestamp < CACHE_TTL_MS then (some e.result, c)
      else (none, mapDelete c k)
  | none => (none, c)

/-- Comparison used by the eviction sort:
`(a, b) => a[1].timestamp - b[1].timestamp` (ascending by `timestamp`;
JS `Array.prototype.sort` is stable, as is `List.insertionSort`). -/
def entryLE (a b : String × CacheEntry) : Prop :=
  a.2.timestamp ≤ b.2.timestamp

instance : DecidableRel entryLE :=
  fun a b => Nat.decLe a.2.timestamp b.2.timestamp

instance : IsTotal (String × CacheEntry) entryLE :=
  ⟨fun a b => Nat.le_total a.2.timestamp b.2.timestamp⟩

instance : IsTrans (String × CacheEntry) entryLE :=
  ⟨fun _ _ _ => Nat.le_trans⟩

/-- The keys chosen for eviction: keys of the 20 oldest-by-`timestamp`
entries (`[...entries].sort(...).slice(0, 20).map(([key]) => key)`). -/
def keysToDelete (c : Cache) : List String :=
  ((List.insertionSort entryLE c).take 20).map Prod.fst

/-- `CompletionService.addToCache`: insert with `timestamp = now`, then
if the store holds more than 100 entries, delete the 20 oldest. -/
def addToCache (c : Cache) (k v : String) (now : Nat) : Cache :=
  let c1 := mapSet c k ⟨v, now⟩
  if 100 < c1.length then
    (keysToDelete c1).foldl (fun acc key => mapDelete acc key) c1
  else c1

/-- `CompletionService.getCacheKey`:
`language + ":" + prefixText + ":" + context.substring(0, 50)`. -/
def getCacheKey (language pre context : String) : String :=
  language ++ ":" ++ pre ++ ":" ++ context.take 50

/-! ### Context window / request construction
(`CompletionService.buildCompletionRequest`) -/

/-- Outcome of a network call through the `ApiClient`: `ok` is a
response with `success = true` (carrying `value.text` and
`value.tokens`), `err` a response with `success = false`, and `exn` an
exception raised by the call. -/
inductive ApiOutcome where
  | ok (text : String) (tokens : Nat)
  | err (message : String)
  | exn (message : String)
deriving DecidableEq, Repr

def ApiOutcome.isOk : ApiOutcome → Bool
  | .ok _ _ => true
  | _ => false

/-- The request sent to `apiClient.getCompletion`.  The source also
passes a floating-point `temperature` straight from configuration to the
request; it is not modelled (no claim mentions it). -/
structure CompletionRequest where
  prompt : String
  model : String
  maxTokens : Nat
  stop : List String
deriving DecidableEq, Repr

/-- Completion-relevant configuration (`ConfigManager` reads). -/
structure CompletionSettings where
  autoCompleteEnabled : Bool
  linesBefore : Nat
  linesAfter : Nat
  maxTokens : Nat
  model : String
deriving DecidableEq, Repr

/-- The accumulation pattern `acc += lineText + '\n'` over a run of
lines. -/
def joinWithNewlines (ls : List String) : String :=
  ls.foldl (fun acc l => acc ++ l ++ "\n") ""

/-- The `contextAfter` accumulation in `buildCompletionRequest`: the
loop `for (i = line; i <= endLine; i++)` appends the current line's text
after the cursor, then each following line up to `endLine`, each with a
trailing newline.  (This value is computed by the source and then never
used in the returned request.) -/
def contextAfterText (doc : List String) (line char endLine : Nat) : String :=
  if endLine < line then ""
  else joinWithNewlines
    (((doc.getD line "").drop char) :: ((doc.drop (line + 1)).take (endLine - line)))

/-- `CompletionService.buildCompletionRequest`.  `linePre` is the
current line truncated at the cursor column (computed by the caller);
`line - cfg.linesBefore` is `Math.max(0, ...)` by `Nat` subtraction. -/
def buildCompletionRequest (doc : List String) (line char : Nat)
    (linePre : String) (ctx : Option String) (cfg : CompletionSettings) :
    CompletionRequest :=
  let startLine := line - cfg.linesBefore
  let endLine := min (doc.length - 1) (line + cfg.linesAfter)
  let promptText :=
    joinWithNewlines ((doc.drop startLine).take (line - startLine)) ++ linePre
  -- computed by the source, but absent from the request it returns:
  let _contextAfter := contextAfterText doc line char endLine
  let promptText :=
    match ctx with
    | some c => c ++ "\n\n" ++ promptText
    | none => promptText
  { prompt := promptText
    model := cfg.model
    maxTokens := cfg.maxTokens
    stop := ["\n\n", "```"] }

/-! ### The completion request path
(`CompletionService.getCompletion`, `AgentService.getCodeCompletion`) -/

/-- The guard `!linePrefix.trim()`: JS `trim()` yields the empty string
(falsy) exactly when every character of the string is whitespace. -/
def isWhitespaceOnly (s : String) : Bool :=
  s.data.all (fun c => c.isWhitespace)

/-- The line prefix computed by `getCompletion`:
`document.lineAt(position.line).text.substring(0, position.character)`. -/
def linePrefixAt (doc : List String) (line char : Nat) : String :=
  (doc.getD line "").take char

/-- What one run of the completion path produces: the value returned to
the caller, how many network calls were issued, the telemetry events
handed to `trackEvent` (in order), and the cache afterwards. -/
structure CompletionOutcome where
  result : Option String
  networkCalls : Nat
  events : List TelemetryEvent
  cache : Cache
deriving DecidableEq, Repr

/-- The `CODE_COMPLETED` event built by
`CompletionService.trackCompletionEvent` (lengths/position/duration
measurements are not modelled). -/
def completionEvent (language apiSession : String) (now : Nat)
    (success fromCache : Bool) : TelemetryEvent :=
  { type := .codeCompleted
    timestamp := now
    sessionId := apiSession
    success := some success
    fromCache := some fromCache
    extraProps := [("language", language)] }

/-- The `FEATURE_USED` event built by `AgentService.endSession`. -/
def featureUsedEvent (apiSession feature : String) (success : Bool)
    (now : Nat) : TelemetryEvent :=
  { type := .featureUsed
    timestamp := now
    sessionId := apiSession
    success := some success
    feature := some feature }

/-- `CompletionService.getCompletion`.  `api` is the `ApiClient`
(outcome as a function of the request sent); `apiSession` is
`apiClient.getSessionId()`.  Notes on fidelity:
* the line prefix is `document.lineAt(line).text.substring(0, char)`;
* `if (!linePrefix.trim())` rejects an empty/whitespace-only prefix;
* `if (cached)` uses JS truthiness, so a cached empty string is treated
  as a miss;
* the `!response.success` branch and the surrounding `catch` both log
  and return `undefined` without calling `trackCompletionEvent`. -/
def getCompletion (cfg : CompletionSettings) (doc : List String)
    (line char : Nat) (ctx : Option String) (languageId apiSession : String)
    (api : CompletionRequest → ApiOutcome) (cache : Cache) (now : Nat) :
    CompletionOutcome :=
  if !cfg.autoCompleteEnabled then ⟨none, 0, [], cache⟩
  else
    let linePre := linePrefixAt doc line char
    if isWhitespaceOnly linePre then ⟨none, 0, [], cache⟩
    else
      let cacheKey := getCacheKey languageId linePre (ctx.getD "")
      let looked := getFromCache cache cacheKey now
      let cache1 := looked.2
      let request := buildCompletionRequest doc line char linePre ctx cfg
      let runMiss : CompletionOutcome :=
        match api request with
        | .ok text _tokens =>
            ⟨some text, 1, [completionEvent languageId apiSession now true false],
              addToCache cache1 cacheKey text now⟩
        | .err _ => ⟨none, 1, [], cache1⟩
        | .exn _ => ⟨none, 1, [], cache1⟩
      match looked.1 with
      | some cachedText =>
          if cachedText.isEmpty then runMiss
          else
            ⟨some cachedText, 0,
              [completionEvent languageId apiSession now true true], cache1⟩
      | none => runMiss

/-- `AgentService.getCodeCompletion`: wraps `getCompletion` in the
session-tracking envelope.  `getCompletion` traps all its errors and
returns `undefined`, so the wrapper's `catch` is unreachable and
`endSession` always emits `FEATURE_USED` with `success = true`. -/
def getCodeCompletion (cfg : CompletionSettings) (doc : List String)
    (line char : Nat) (ctx : Option String) (languageId apiSession : String)
    (api : CompletionRequest → ApiOutcome) (cache : Cache) (now : Nat) :
    CompletionOutcome :=
  let out := getCompletion cfg doc line char ctx languageId apiSession api cache now
  { out with
    events := out.events ++ [featureUsedEvent apiSession "code_completion" true now] }

/-! ### One-shot commands (`AgentService.generateCode`, `explainCode`,
`generateCommitMessage`, `addLogging`, `chat`) -/

/-- The `Result<string, Error>` value the one-shot operations return:
`success` is `{ success: true, value }`, `failure` is
`{ success: false, error }` (carrying the error's message). -/
inductive OpResult (α : Type) where
  | success (value : α)
  | failure (message : String)
deriving DecidableEq, Repr

def OpResult.isFailure {α : Type} : OpResult α → Bool
  | .failure _ => true
  | .success _ => false

/-- `AgentService.generateCode`: every branch ends the session (emitting
one `FEATURE_USED` event with the matching success flag) and returns a
`Result` — the `catch` converts a raised exception into a failure
value. -/
def generateCode (api : ApiOutcome) (apiSession : String) (now : Nat) :
    OpResult String × List TelemetryEvent :=
  match api with
  | .ok code _ =>
      (.success code, [featureUsedEvent apiSession "code_generation" true now])
  | .err m =>
      (.failure ("Failed to generate code: " ++ m),
        [featureUsedEvent apiSession "code_generation" false now])
  | .exn m =>
      (.failure m, [featureUsedEvent apiSession "code_generation" false now])

/-- `AgentService.explainCode` (same envelope, `value.explanation`). -/
def explainCode (api : ApiOutcome) (apiSession : String) (now : Nat) :
    OpResult String × List TelemetryEvent :=
  match api with
  | .ok explanation _ =>
      (.success explanation,
        [featureUsedEvent apiSession "code_explanation" true now])
  | .err m =>
      (.failure ("Failed to explain code: " ++ m),
        [featureUsedEvent apiSession "code_explanation" false now])
  | .exn m =>
      (.failure m, [featureUsedEvent apiSession "code_explanation" false now])

/-- `AgentService.generateCommitMessage` (same envelope,
`value.message`). -/
def generateCommitMessage (api : ApiOutcome) (apiSession : String) (now : Nat) :
    OpResult String × List TelemetryEvent :=
  match api with
  | .ok message _ =>
      (.success message,
        [featureUsedEvent apiSession "commit_generation" true now])
  | .err m =>
      (.failure ("Failed to generate commit message: " ++ m),
        [featureUsedEvent apiSession "commit_generation" false now])
  | .exn m =>
      (.failure m, [featureUsedEvent apiSession "commit_generation" false now])

/-- `AgentService.addLogging` (same envelope, `value.code`). -/
def addLogging (api : ApiOutcome) (apiSession : String) (now : Nat) :
    OpResult String × List TelemetryEvent :=
  match api with
  | .ok code _ =>
      (.success code, [featureUsedEvent apiSession "log_generation" true now])
  | .err m =>
      (.failure ("Failed to add logging: " ++ m),
        [featureUsedEvent apiSession "log_generation" false now])
  | .exn m =>
      (.failure m, [featureUsedEvent apiSession "log_generation" false now])

/-- The chat message list `AgentService.chat` builds: a system message,
the prior conversation with alternating `user`/`assistant` roles, then
the new user message. -/
def chatMessages (conversation : List String) (message : String) :
    List (String × String) :=
  ("system", "You are M31-Agent, an AI assistant for developers.") ::
    (conversation.enum.map (fun p =>
      (if p.1 % 2 = 0 then "user" else "assistant", p.2))) ++
    [("user", message)]

/-- `AgentService.chat` (same envelope; the client is a function of the
message list, result `value.message.content`). -/
def chat (conversation : List String) (message : String)
    (api : List (String × String) → ApiOutcome) (apiSession : String)
    (now : Nat) : OpResult String × List TelemetryEvent :=
  match api (chatMessages conversation message) with
  | .ok content _ =>
      (.success content, [featureUsedEvent apiSession "chat" true now])
  | .err m =>
      (.failure ("Failed to get chat response: " ++ m),
        [featureUsedEvent apiSession "chat" false now])
  | .exn m =>
      (.failure m, [featureUsedEvent apiSession "chat" false now])

/-! ### Concrete fixtures for witnesses and counterexamples -/

/-- An event as a caller would build it (its `sessionId` differs from the
service's). -/
def sampleEvent : TelemetryEvent :=
  { type := .featureUsed, timestamp := 1, sessionId := "caller-supplied" }

/-- A telemetry service state as constructed at process start. -/
def sampleState : TelemetryState :=
  { sessionId := "session-1"
    isEnabled := true
    pendingEvents := []
    extensionVersion := "0.1.0"
    vscodeVersion := "1.89.0"
    osInfo := "linux-6.8" }

/-- A state whose buffer holds 19 already-enriched events. -/
def fullState : TelemetryState :=
  { sampleState with
    pendingEvents := List.replicate 19 (enrichEvent sampleState sampleEvent 1) }

/-- A state observed after telemetry was disabled mid-session: the buffer
still holds an event tracked while telemetry was on. -/
def disabledState : TelemetryState :=
  { sampleState with
    isEnabled := false
    pendingEvents := [enrichEvent sampleState sampleEvent 1] }

/-- An enabled state with one pending event, used to exercise the flush
failure path. -/
def c2State : TelemetryState :=
  { sampleState with
    pendingEvents := [enrichEvent sampleState sampleEvent 1] }

/-- Completion settings with the feature enabled. -/
def sampleCfg : CompletionSettings :=
  { autoCompleteEnabled := true
    linesBefore := 2
    linesAfter := 2
    maxTokens := 10
    model := "standard" }

/-- A client whose every call fails with `success = false`. -/
def failingApi : CompletionRequest → ApiOutcome :=
  fun _ => .err "network down"

/-- A cache entry created at time 10. -/
def cEntry : CacheEntry := { result := "val", timestamp := 10 }

/-- A one-entry cache. -/
def cA : Cache := [("k", cEntry)]

/-- Distinct cache keys for a 100-entry fixture: `i` letters `a`. -/
def demoKey (i : Nat) : String := String.mk (List.replicate i 'a')

/-- Entry number `i` of the fixture, created at time `i`. -/
def demoEntry (i : Nat) : CacheEntry := { result := "v", timestamp := i }

/-- A 100-entry cache with pairwise-distinct keys and strictly
increasing creation times. -/
def demoCache : Cache := (List.range 100).map (fun i => (demoKey i, demoEntry i))

/-! ## Theorems -/

/-- Helper: every `flush` is the identity while telemetry is disabled. -/
theorem flush_of_disabled (s : TelemetryState) (ok : Bool)
    (h : s.isEnabled = false) : flush s ok = (s, []) := by
  simp [flush, h]

/-- Helper: a whole sequence of flushes is the identity while telemetry
is disabled. -/
theorem flushSeq_of_disabled (s : TelemetryState) (oks : List Bool)
    (h : s.isEnabled = false) : flushSeq s oks = (s, []) := by
  unfold flushSeq
  induction oks with
  | nil => rfl
  | cons ok oks ih =>
      rw [List.foldl_cons]
      simpa [flush_of_disabled s ok h] using ih

/-- C10: if telemetry is disabled (or the pending buffer is empty),
`flush` returns without delivering anything and leaves the state — in
particular the pending buffer — exactly unchanged; while telemetry stays
disabled, no sequence of later flushes delivers or clears the events
buffered before it was disabled. -/
theorem flush_disabled_frame (s : TelemetryState) (ok : Bool) (oks : List Bool)
    (hdis : s.isEnabled = false ∨ s.pendingEvents = []) :
    flush s ok = (s, []) ∧
    (s.isEnabled = false → flushSeq s oks = (s, [])) := by
  constructor
  · rcases hdis with h | h
    · exact flush_of_disabled s ok h
    · simp [flush, h]
  · intro h
    exact flushSeq_of_disabled s oks h

/-- C10 witness: a state holding one event buffered before telemetry was
disabled is untouched by a flush, and by three more periodic flushes. -/
theorem flush_disabled_frame_witness :
    flush disabledState true = (disabledState, []) ∧
    (disabledState.isEnabled = false →
      flushSeq disabledState [true, false, true] = (disabledState, [])) :=
  flush_disabled_frame disabledState true [true, false, true] (Or.inl rfl)

/-- C2 (code bug): a delivery failure during `flush` loses the snapshot.
With one tracked event pending, a failing flush leaves the pending
buffer empty and delivers nothing — the event is gone, although the
source's own comment in the `catch` block says "Add the events back to
the queue".  (The `catch` executes `this.pendingEvents =
[...this.pendingEvents]` on the already-cleared buffer instead of
prepending the snapshot.) -/
theorem flush_failure_drops_snapshot :
    c2State.isEnabled = true ∧
    c2State.pendingEvents ≠ [] ∧
    (flush c2State false).1.pendingEvents = [] ∧
    (flush c2State false).2 = [] := by
  refine ⟨rfl, by decide, rfl, rfl⟩

/-- Helper: an enabled flush over a non-empty buffer with successful
delivery clears the buffer and delivers the snapshot. -/
theorem flush_enabled_ok (s : TelemetryState) (hEn : s.isEnabled = true)
    (hne : s.pendingEvents ≠ []) :
    flush s true = ({ s with pendingEvents := [] }, s.pendingEvents) := by
  simp [flush, hEn, hne]

/-- Helper: an enabled flush over a non-empty buffer whose delivery
fails clears the buffer without delivering anything (the snapshot is
lost — see `flush_failure_drops_snapshot`). -/
theorem flush_enabled_fail (s : TelemetryState) (hEn : s.isEnabled = true)
    (hne : s.pendingEvents ≠ []) :
    flush s false = ({ s with pendingEvents := [] }, []) := by
  simp [flush, hEn, hne]

/-- Helper: `trackEvent` on an enabled service appends the enriched
event and then flushes exactly when the batch size is reached. -/
theorem trackEvent_enabled (s : TelemetryState) (e : TelemetryEvent)
    (now : Nat) (ok : Bool) (hEn : s.isEnabled = true) :
    trackEvent s e now ok =
      if EVENTS_BATCH_SIZE ≤ s.pendingEvents.length + 1 then
        flush { s with pendingEvents := s.pendingEvents ++ [enrichEvent s e now] } ok
      else
        ({ s with pendingEvents := s.pendingEvents ++ [enrichEvent s e now] }, []) := by
  simp [trackEvent, hEn]

/-- C7: when telemetry is enabled and delivery succeeds, `trackEvent`
leaves strictly fewer than `EVENTS_BATCH_SIZE` events pending; and when
the appended event brings the buffer to the batch size, the flush runs
within that very call — the buffer is cleared and the whole batch is
delivered before `trackEvent` returns. -/
theorem trackEvent_batch_flush (s : TelemetryState) (e : TelemetryEvent)
    (now : Nat) (hEn : s.isEnabled = true) :
    (trackEvent s e now true).1.pendingEvents.length < EVENTS_BATCH_SIZE ∧
    (EVENTS_BATCH_SIZE ≤ s.pendingEvents.length + 1 →
      trackEvent s e now true =
        ({ s with pendingEvents := [] },
          s.pendingEvents ++ [enrichEvent s e now])) := by
  have hne : s.pendingEvents ++ [enrichEvent s e now] ≠ [] := by simp
  have hflush :
      flush { s with pendingEvents := s.pendingEvents ++ [enrichEvent s e now] } true =
        ({ s with pendingEvents := [] },
          s.pendingEvents ++ [enrichEvent s e now]) :=
    flush_enabled_ok _ hEn hne
  rw [trackEvent_enabled s e now true hEn]
  by_cases h : EVENTS_BATCH_SIZE ≤ s.pendingEvents.length + 1
  · rw [if_pos h, hflush]
    refine ⟨?_, fun _ => rfl⟩
    simp [EVENTS_BATCH_SIZE]
  · rw [if_neg h]
    refine ⟨?_, fun hcon => absurd hcon h⟩
    simp only [List.length_append, List.length_cons, List.length_nil]
    omega

/-- C7 witness: with 19 events already pending, one more `track` flushes
the full batch of 20 within the call. -/
theorem trackEvent_batch_flush_witness :
    (trackEvent fullState sampleEvent 2 true).1.pendingEvents.length <
      EVENTS_BATCH_SIZE ∧
    (EVENTS_BATCH_SIZE ≤ fullState.pendingEvents.length + 1 →
      trackEvent fullState sampleEvent 2 true =
        ({ fullState with pendingEvents := [] },
          fullState.pendingEvents ++ [enrichEvent fullState sampleEvent 2])) :=
  trackEvent_batch_flush fullState sampleEvent 2 rfl

/-- C8: the event appended by `trackEvent` carries the service's own
session identifier (generated once at construction), regardless of the
`sessionId` the caller placed on the event; the state's identifier is
never modified, and if every buffered event already carried it, that
remains true after any `trackEvent` call. -/
theorem trackEvent_injects_sessionId (s : TelemetryState) (e : TelemetryEvent)
    (now : Nat) (ok : Bool)
    (h : ∀ ev ∈ s.pendingEvents, ev.sessionId = s.sessionId) :
    (enrichEvent s e now).sessionId = s.sessionId ∧
    (trackEvent s e now ok).1.sessionId = s.sessionId ∧
    ∀ ev ∈ (trackEvent s e now ok).1.pendingEvents,
      ev.sessionId = s.sessionId := by
  refine ⟨rfl, ?_⟩
  by_cases hEn : s.isEnabled
  · rw [trackEvent_enabled s e now ok hEn]
    have hne : s.pendingEvents ++ [enrichEvent s e now] ≠ [] := by simp
    by_cases hth : EVENTS_BATCH_SIZE ≤ s.pendingEvents.length + 1
    · rw [if_pos hth]
      cases ok
      · rw [flush_enabled_fail
          { s with pendingEvents := s.pendingEvents ++ [enrichEvent s e now] } hEn hne]
        exact ⟨rfl, by simp⟩
      · rw [flush_enabled_ok
          { s with pendingEvents := s.pendingEvents ++ [enrichEvent s e now] } hEn hne]
        exact ⟨rfl, by simp⟩
    · rw [if_neg hth]
      refine ⟨rfl, ?_⟩
      intro ev hev
      simp only [List.mem_append, List.mem_singleton] at hev
      rcases hev with hev | hev
      · exact h ev hev
      · rw [hev]; rfl
  · have hEn' : s.isEnabled = false := by simpa using hEn
    have : trackEvent s e now ok = (s, []) := by simp [trackEvent, hEn']
    rw [this]
    exact ⟨rfl, h⟩

/-- C8 witness: an event whose caller-set `sessionId` differs from the
service's still lands in the buffer carrying the service's identifier. -/
theorem trackEvent_injects_sessionId_witness :
    (enrichEvent sampleState sampleEvent 2).sessionId = sampleState.sessionId ∧
    (trackEvent sampleState sampleEvent 2 true).1.sessionId =
      sampleState.sessionId ∧
    ∀ ev ∈ (trackEvent sampleState sampleEvent 2 true).1.pendingEvents,
      ev.sessionId = sampleState.sessionId :=
  trackEvent_injects_sessionId sampleState sampleEvent 2 true (by simp [sampleState])

/-- C9: each one-shot operation returns a `Result` value in every case —
failure exactly when the network call does not succeed (including a
raised exception, which the `catch` turns into a failure value), the
produced value on success — and each run emits exactly one
`FEATURE_USED` event whose success flag matches the outcome. -/
theorem oneShot_result_envelope (api : ApiOutcome)
    (capi : List (String × String) → ApiOutcome)
    (conversation : List String) (message sid text errMsg : String)
    (now tokens : Nat) :
    ((generateCode api sid now).1.isFailure = !api.isOk ∧
      (generateCode api sid now).2 =
        [featureUsedEvent sid "code_generation" api.isOk now]) ∧
    ((explainCode api sid now).1.isFailure = !api.isOk ∧
      (explainCode api sid now).2 =
        [featureUsedEvent sid "code_explanation" api.isOk now]) ∧
    ((generateCommitMessage api sid now).1.isFailure = !api.isOk ∧
      (generateCommitMessage api sid now).2 =
        [featureUsedEvent sid "commit_generation" api.isOk now]) ∧
    ((addLogging api sid now).1.isFailure = !api.isOk ∧
      (addLogging api sid now).2 =
        [featureUsedEvent sid "log_generation" api.isOk now]) ∧
    ((chat conversation message capi sid now).1.isFailure =
        !(capi (chatMessages conversation message)).isOk ∧
      (chat conversation message capi sid now).2 =
        [featureUsedEvent sid "chat"
          (capi (chatMessages conversation message)).isOk now]) ∧
    (generateCode (.ok text tokens) sid now).1 = .success text ∧
    (explainCode (.ok text tokens) sid now).1 = .success text ∧
    (generateCommitMessage (.ok text tokens) sid now).1 = .success text ∧
    (addLogging (.ok text tokens) sid now).1 = .success text ∧
    (chat conversation message (fun _ => .ok text tokens) sid now).1 =
      .success text ∧
    (generateCode (.err errMsg) sid now).1 =
      .failure ("Failed to generate code: " ++ errMsg) ∧
    (generateCode (.exn errMsg) sid now).1 = .failure errMsg := by
  refine ⟨?_, ?_, ?_, ?_, ?_, ?_, ?_, ?_, ?_, ?_, ?_, ?_⟩
  · cases api <;> simp [generateCode, ApiOutcome.isOk, OpResult.isFailure]
  · cases api <;> simp [explainCode, ApiOutcome.isOk, OpResult.isFailure]
  · cases api <;>
      simp [generateCommitMessage, ApiOutcome.isOk, OpResult.isFailure]
  · cases api <;> simp [addLogging, ApiOutcome.isOk, OpResult.isFailure]
  · cases hc : capi (chatMessages conversation message) <;>
      simp [chat, hc, ApiOutcome.isOk, OpResult.isFailure]
  · rfl
  · rfl
  · rfl
  · rfl
  · rfl
  · rfl
  · rfl

/-- C1 counterexample: a completion trigger that issues a network call
whose response has `success = false` returns nothing but emits NO
telemetry event (the failure is only logged) — so this outbound network
attempt has no matching telemetry event. -/
theorem completion_failure_counterexample :
    (getCompletion sampleCfg ["abc"] 0 2 none "javascript" "sess" failingApi
      [] 5).networkCalls = 1 ∧
    (getCompletion sampleCfg ["abc"] 0 2 none "javascript" "sess" failingApi
      [] 5).result = none ∧
    (getCompletion sampleCfg ["abc"] 0 2 none "javascript" "sess" failingApi
      [] 5).events = [] := by
  decide

/-- C1 (amended): for every inline completion request that issues a
network call against a failing client, `getCompletion` returns nothing
and emits no telemetry event at all — failed network attempts therefore
have no matching telemetry event. -/
theorem getCompletion_failure_no_telemetry (cfg : CompletionSettings)
    (doc : List String) (line char : Nat) (ctx : Option String)
    (languageId apiSession : String) (api : CompletionRequest → ApiOutcome)
    (cache : Cache) (now : Nat)
    (hfail : ∀ rq, (api rq).isOk = false)
    (hcall : (getCompletion cfg doc line char ctx languageId apiSession api
        cache now).networkCalls ≠ 0) :
    (getCompletion cfg doc line char ctx languageId apiSession api
        cache now).result = none ∧
    (getCompletion cfg doc line char ctx languageId apiSession api
        cache now).events = [] := by
  by_cases hen : (!cfg.autoCompleteEnabled) = true
  · exact absurd (by simp [getCompletion, hen]) hcall
  · by_cases hws : isWhitespaceOnly (linePrefixAt doc line char) = true
    · exact absurd (by simp [getCompletion, hen, hws]) hcall
    · rcases hlook : (getFromCache cache
          (getCacheKey languageId (linePrefixAt doc line char) (ctx.getD ""))
          now).1 with _ | ct
      · rcases hapi : api (buildCompletionRequest doc line char
            (linePrefixAt doc line char) ctx cfg) with ⟨t, k⟩ | m | m
        · have hok := hfail (buildCompletionRequest doc line char
            (linePrefixAt doc line char) ctx cfg)
          rw [hapi] at hok
          simp [ApiOutcome.isOk] at hok
        · constructor <;> simp [getCompletion, hen, hws, hlook, hapi]
        · constructor <;> simp [getCompletion, hen, hws, hlook, hapi]
      · by_cases hemp : ct.isEmpty
        · rcases hapi : api (buildCompletionRequest doc line char
              (linePrefixAt doc line char) ctx cfg) with ⟨t, k⟩ | m | m
          · have hok := hfail (buildCompletionRequest doc line char
              (linePrefixAt doc line char) ctx cfg)
            rw [hapi] at hok
            simp [ApiOutcome.isOk] at hok
          · constructor <;> simp [getCompletion, hen, hws, hlook, hemp, hapi]
          · constructor <;> simp [getCompletion, hen, hws, hlook, hemp, hapi]
        · exact absurd (by simp [getCompletion, hen, hws, hlook, hemp]) hcall

/-- C1 witness: a concrete failing request — `getCompletion` issued the
call, returned nothing and emitted nothing. -/
theorem getCompletion_failure_no_telemetry_witness :
    (getCompletion sampleCfg ["let x"] 0 3 none "typescript" "sess"
        failingApi [] 7).result = none ∧
    (getCompletion sampleCfg ["let x"] 0 3 none "typescript" "sess"
        failingApi [] 7).events = [] :=
  getCompletion_failure_no_telemetry sampleCfg ["let x"] 0 3 none "typescript"
    "sess" failingApi [] 7 (fun _ => rfl) (by decide)

/-- C6 counterexample: a trigger whose line prefix is whitespace-only
returns nothing and issues no network call, yet the completion request
path (through `AgentService.getCodeCompletion`) still produces a
telemetry event — `endSession` emits `FEATURE_USED` unconditionally. -/
theorem noop_trigger_emits_feature_event :
    (getCodeCompletion sampleCfg [" "] 0 1 none "javascript" "sess"
      failingApi [] 5).result = none ∧
    (getCodeCompletion sampleCfg [" "] 0 1 none "javascript" "sess"
      failingApi [] 5).networkCalls = 0 ∧
    (getCodeCompletion sampleCfg [" "] 0 1 none "javascript" "sess"
      failingApi [] 5).events ≠ [] := by
  decide

/-- C6 (amended): on a trigger with an empty/whitespace-only line prefix
or with the feature disabled, `CompletionService.getCompletion` returns
nothing immediately, issues no network call, leaves the cache untouched
and emits no telemetry event itself; the `AgentService.getCodeCompletion`
wrapper nonetheless emits exactly one `FEATURE_USED` session event
(with `success = true`) for the trigger. -/
theorem noop_trigger_service_silent (cfg : CompletionSettings)
    (doc : List String) (line char : Nat) (ctx : Option String)
    (languageId apiSession : String) (api : CompletionRequest → ApiOutcome)
    (cache : Cache) (now : Nat)
    (hno : cfg.autoCompleteEnabled = false ∨
      isWhitespaceOnly (linePrefixAt doc line char) = true) :
    getCompletion cfg doc line char ctx languageId apiSession api cache now =
      ⟨none, 0, [], cache⟩ ∧
    getCodeCompletion cfg doc line char ctx languageId apiSession api cache now =
      ⟨none, 0, [featureUsedEvent apiSession "code_completion" true now],
        cache⟩ := by
  have h1 : getCompletion cfg doc line char ctx languageId apiSession api
      cache now = ⟨none, 0, [], cache⟩ := by
    rcases hno with h | h
    · simp [getCompletion, h]
    · by_cases hen : cfg.autoCompleteEnabled <;> simp [getCompletion, h, hen]
  refine ⟨h1, ?_⟩
  simp [getCodeCompletion, h1]

/-- C6 witness: with the feature disabled by configuration, the service
is silent but the wrapper still emits its session event. -/
theorem noop_trigger_service_silent_witness :
    getCompletion { sampleCfg with autoCompleteEnabled := false } ["abc"] 0 2
        none "javascript" "sess" failingApi [] 5 = ⟨none, 0, [], []⟩ ∧
    getCodeCompletion { sampleCfg with autoCompleteEnabled := false } ["abc"]
        0 2 none "javascript" "sess" failingApi [] 5 =
      ⟨none, 0, [featureUsedEvent "sess" "code_completion" true 5], []⟩ :=
  noop_trigger_service_silent { sampleCfg with autoCompleteEnabled := false }
    ["abc"] 0 2 none "javascript" "sess" failingApi [] 5 (Or.inl rfl)

/-- C5 (code bug): at a two-line document with the cursor at line 0,
column 2 and a two-line context window, the prompt the source builds is
just the before-cursor text `"ab"`; the after-cursor window
(`"c\ndef\n"`, which the source computes into its unused `contextAfter`
variable) is not concatenated, so the prompt differs from the
header+before+after string the claim describes. -/
theorem buildCompletionRequest_drops_suffix_context :
    (buildCompletionRequest ["abc", "def"] 0 2 "ab" none sampleCfg).prompt
      = "ab" ∧
    contextAfterText ["abc", "def"] 0 2
      (min ((["abc", "def"] : List String).length - 1) (0 + sampleCfg.linesAfter))
      = "c\ndef\n" ∧
    (buildCompletionRequest ["abc", "def"] 0 2 "ab" none sampleCfg).prompt ≠
      (buildCompletionRequest ["abc", "def"] 0 2 "ab" none sampleCfg).prompt ++
        contextAfterText ["abc", "def"] 0 2
          (min ((["abc", "def"] : List String).length - 1)
            (0 + sampleCfg.linesAfter)) := by
  decide

/-- Helper: after `mapDelete c k`, key `k` is no longer found. -/
theorem mapGet_mapDelete (c : Cache) (k : String) :
    mapGet (mapDelete c k) k = none := by
  unfold mapGet mapDelete
  rw [Option.map_eq_none', List.find?_eq_none]
  intro p hp
  rcases List.mem_filter.mp hp with ⟨-, hne⟩
  simpa using hne

/-- C4: for an entry stored under key `k`, `get` returns the stored
value exactly when called strictly before `createdAt + TTL`
(`TTL = CACHE_TTL_MS = 60000`); called at or after that instant it
returns nothing and, as a side effect, removes the entry from the
store. -/
theorem getFromCache_ttl (c : Cache) (k : String) (e : CacheEntry) (now : Nat)
    (h : mapGet c k = some e) :
    ((getFromCache c k now).1 = some e.result ↔
      now < e.timestamp + CACHE_TTL_MS) ∧
    (e.timestamp + CACHE_TTL_MS ≤ now →
      (getFromCache c k now).1 = none ∧
      mapGet (getFromCache c k now).2 k = none) := by
  have hiff : now - e.timestamp < CACHE_TTL_MS ↔
      now < e.timestamp + CACHE_TTL_MS := by
    simp only [CACHE_TTL_MS]
    omega
  unfold getFromCache
  rw [h]
  dsimp only
  by_cases hlt : now - e.timestamp < CACHE_TTL_MS
  · rw [if_pos hlt]
    refine ⟨by simp [hiff.mp hlt], fun hge => absurd (hiff.mp hlt) (by omega)⟩
  · rw [if_neg hlt]
    have hge : ¬ now < e.timestamp + CACHE_TTL_MS := fun hc => hlt (hiff.mpr hc)
    exact ⟨by simp [hge], fun _ => ⟨rfl, mapGet_mapDelete c k⟩⟩

/-- C4 witness: a one-entry cache created at time 10 — readable at time
20, expired and evicted at time `10 + CACHE_TTL_MS`. -/
theorem getFromCache_ttl_witness :
    ((getFromCache cA "k" (10 + CACHE_TTL_MS)).1 = some cEntry.result ↔
      10 + CACHE_TTL_MS < cEntry.timestamp + CACHE_TTL_MS) ∧
    (cEntry.timestamp + CACHE_TTL_MS ≤ 10 + CACHE_TTL_MS →
      (getFromCache cA "k" (10 + CACHE_TTL_MS)).1 = none ∧
      mapGet (getFromCache cA "k" (10 + CACHE_TTL_MS)).2 "k" = none) :=
  getFromCache_ttl cA "k" cEntry (10 + CACHE_TTL_MS) (by decide)

/-- Helper: the fixture keys are pairwise distinct. -/
theorem demoKey_injective : Function.Injective demoKey := by
  intro i j h
  have h2 := congrArg (fun s : String => s.data.length) h
  simpa [demoKey] using h2

/-- Helper: the fixture holds 100 entries. -/
theorem demoCache_length : demoCache.length = 100 := by
  simp [demoCache]

/-- Helper: the fixture keys are `Nodup`. -/
theorem demoCache_keys_nodup : (demoCache.map Prod.fst).Nodup := by
  unfold demoCache
  rw [List.map_map]
  exact List.Nodup.map demoKey_injective (List.nodup_range 100)

/-- Helper: key `"b"` is absent from the fixture. -/
theorem demoCache_fresh : mapGet demoCache "b" = none := by decide
/-- Helper: an unfound key is not among the keys. -/
theorem not_mem_keys_of_mapGet_none (c : Cache) (k : String)
    (h : mapGet c k = none) : k ∉ c.map Prod.fst := by
  intro hk
  rcases List.mem_map.mp hk with ⟨p, hp, hfst⟩
  simp only [mapGet, Option.map_eq_none', List.find?_eq_none] at h
  exact h p hp (by simp [hfst])

/-- Helper: `Map.set` with a fresh key appends the entry. -/
theorem mapSet_of_mapGet_none (c : Cache) (k : String) (e : CacheEntry)
    (h : mapGet c k = none) : mapSet c k e = c ++ [(k, e)] := by
  unfold mapSet
  have hany : c.any (fun p => p.1 == k) = false := by
    rw [List.any_eq_false]
    intro p hp
    simp only [mapGet, Option.map_eq_none', List.find?_eq_none] at h
    exact h p hp
  rw [hany]
  simp

/-- Helper: deleting each key of `ks` in turn keeps exactly the entries
whose key is not in `ks`. -/
theorem foldl_mapDelete_eq_filter (ks : List String) (c : Cache) :
    ks.foldl (fun acc key => mapDelete acc key) c =
      c.filter (fun p => !(ks.contains p.1)) := by
  induction ks generalizing c with
  | nil => simp
  | cons k ks ih =>
      rw [List.foldl_cons, ih (mapDelete c k)]
      unfold mapDelete
      rw [List.filter_filter]
      congr 1
      funext p
      by_cases hpk : p.1 = k <;>
        by_cases hpm : p.1 ∈ ks <;>
          simp [List.contains_cons, Bool.not_or, Bool.and_comm, bne, hpk, hpm]

/-- Helper: a filter and its complement split the length. -/
theorem length_filter_bool_split {α : Type} (q : α → Bool) (l : List α) :
    (l.filter q).length + (l.filter (fun a => !q a)).length = l.length := by
  induction l with
  | nil => rfl
  | cons x l ih =>
      by_cases h : q x <;> simp [List.filter_cons, h, ← ih] <;> omega

/-- Helper: on a duplicate-free list, the elements that fall in a
duplicate-free sublist `ks` of it number exactly `ks.length`. -/
theorem countP_contains_of_nodup (l ks : List String) (hl : l.Nodup)
    (hks : ks.Nodup) (hsub : ∀ k ∈ ks, k ∈ l) :
    l.countP (fun x => ks.contains x) = ks.length := by
  rw [List.countP_eq_length_filter]
  apply Nat.le_antisymm
  · have hsubA : (l.filter (fun x => ks.contains x)) ⊆ ks := by
      intro x hx
      rcases List.mem_filter.mp hx with ⟨-, hc⟩
      simpa using hc
    exact ((hl.filter _).subperm hsubA).length_le
  · have hsubB : ks ⊆ l.filter (fun x => ks.contains x) := by
      intro key hk
      exact List.mem_filter.mpr ⟨hsub key hk, by simpa using hk⟩
    exact (hks.subperm hsubB).length_le

/-- Helper: filtering out the entries whose key lies in `ks` (each key
present, all keys distinct) removes exactly `ks.length` entries. -/
theorem length_filter_not_contains (c : Cache) (ks : List String)
    (hnd : (c.map Prod.fst).Nodup) (hks : ks.Nodup)
    (hsub : ∀ k ∈ ks, k ∈ c.map Prod.fst) :
    (c.filter (fun p => !(ks.contains p.1))).length = c.length - ks.length := by
  have hsplit := length_filter_bool_split
    (fun p : String × CacheEntry => ks.contains p.1) c
  have hcount : (c.filter (fun p : String × CacheEntry => ks.contains p.1)).length
      = ks.length := by
    rw [← List.countP_eq_length_filter]
    have hmap := countP_contains_of_nodup (c.map Prod.fst) ks hnd hks hsub
    rw [List.countP_map] at hmap
    simpa using hmap
  omega
/-- C3: inserting a fresh key into a full 100-entry store (distinct
keys) makes it exceed the capacity threshold and evicts exactly 20
entries — the oldest by `createdAt` with the sort's stable tie-break:
81 entries remain, every evicted entry is at least as old as every
survivor, and `get` on any evicted key returns nothing.  When an
insertion leaves the store at or below 100 entries, no eviction
occurs. -/
theorem addToCache_eviction (c : Cache) (k v : String) (now : Nat)
    (hnd : (c.map Prod.fst).Nodup) (hfresh : mapGet c k = none)
    (hsize : c.length = 100) :
    (addToCache c k v now).length = 81 ∧
    (keysToDelete (mapSet c k ⟨v, now⟩)).length = 20 ∧
    (∀ key ∈ keysToDelete (mapSet c k ⟨v, now⟩), ∀ t,
      (getFromCache (addToCache c k v now) key t).1 = none) ∧
    (∀ p ∈ (List.insertionSort entryLE (mapSet c k ⟨v, now⟩)).take 20,
      ∀ q ∈ addToCache c k v now, p.2.timestamp ≤ q.2.timestamp) ∧
    (∀ (c' : Cache) (k' v' : String) (n' : Nat),
      (mapSet c' k' ⟨v', n'⟩).length ≤ 100 →
      addToCache c' k' v' n' = mapSet c' k' ⟨v', n'⟩) := by
  have hins : mapSet c k ⟨v, now⟩ = c ++ [(k, ⟨v, now⟩)] :=
    mapSet_of_mapGet_none c k _ hfresh
  set c1 := mapSet c k ⟨v, now⟩ with hc1def
  have hlen1 : c1.length = 101 := by rw [hins]; simp [hsize]
  have hknotmem : k ∉ c.map Prod.fst := not_mem_keys_of_mapGet_none c k hfresh
  have hnd1 : (c1.map Prod.fst).Nodup := by
    rw [hins, List.map_append]
    apply List.Nodup.append hnd (List.nodup_singleton k)
    intro a ha hb
    simp only [List.map_cons, List.map_nil, List.mem_singleton] at hb
    subst hb
    exact hknotmem ha
  set sorted := List.insertionSort entryLE c1 with hsorteddef
  have hperm : sorted.Perm c1 := List.perm_insertionSort entryLE c1
  have hsortlen : sorted.length = 101 := hperm.length_eq.trans hlen1
  have hkslen : (keysToDelete c1).length = 20 := by
    unfold keysToDelete
    rw [← hsorteddef, List.length_map, List.length_take, hsortlen]
    rfl
  have hsortkeysnd : (sorted.map Prod.fst).Nodup :=
    ((hperm.map Prod.fst).nodup_iff).mpr hnd1
  have hksnd : (keysToDelete c1).Nodup := by
    unfold keysToDelete
    rw [← hsorteddef, List.map_take]
    exact (List.take_sublist _ _).nodup hsortkeysnd
  have hsubks : ∀ key ∈ keysToDelete c1, key ∈ c1.map Prod.fst := by
    intro key hkey
    unfold keysToDelete at hkey
    rw [← hsorteddef] at hkey
    rcases List.mem_map.mp hkey with ⟨p, hp, rfl⟩
    exact List.mem_map_of_mem _ (hperm.mem_iff.mp (List.mem_of_mem_take hp))
  have heviction : addToCache c k v now =
      c1.filter (fun p => !((keysToDelete c1).contains p.1)) := by
    unfold addToCache
    rw [← hc1def]
    rw [if_pos (by omega)]
    exact foldl_mapDelete_eq_filter _ _
  refine ⟨?_, hkslen, ?_, ?_, ?_⟩
  · rw [heviction, length_filter_not_contains c1 _ hnd1 hksnd hsubks,
      hlen1, hkslen]
  · intro key hkey t
    have hnone : mapGet (addToCache c k v now) key = none := by
      rw [heviction]
      unfold mapGet
      rw [Option.map_eq_none', List.find?_eq_none]
      intro p hp hbeq
      rcases List.mem_filter.mp hp with ⟨-, hnc⟩
      have hpk : p.1 = key := by simpa using hbeq
      rw [hpk] at hnc
      simp at hnc
      exact hnc hkey
    unfold getFromCache
    rw [hnone]
  · intro p hp q hq
    have hsorted : List.Sorted entryLE sorted :=
      List.sorted_insertionSort entryLE c1
    have hq1 : q ∈ c1 := by
      rw [heviction] at hq
      exact (List.mem_filter.mp hq).1
    have hqnc := (List.mem_filter.mp (heviction ▸ hq)).2
    have hqsorted : q ∈ sorted := hperm.mem_iff.mpr hq1
    have hsplit : sorted = sorted.take 20 ++ sorted.drop 20 :=
      (List.take_append_drop 20 sorted).symm
    have hq2 : q ∈ sorted.take 20 ∨ q ∈ sorted.drop 20 := by
      rw [hsplit] at hqsorted
      exact List.mem_append.mp hqsorted
    rcases hq2 with hq2 | hq2
    · exfalso
      have hqin : q.1 ∈ keysToDelete c1 := by
        unfold keysToDelete
        rw [← hsorteddef]
        exact List.mem_map_of_mem _ hq2
      simp at hqnc
      exact hqnc hqin
    · have hpw := (List.pairwise_append.mp (hsplit ▸ hsorted)).2.2
      exact hpw p hp q hq2
  · intro c' k' v' n' hle
    unfold addToCache
    rw [if_neg (by omega)]
/-- C3 witness: the 100-entry fixture plus a fresh key — 81 entries
remain and the 20 oldest are gone. -/
theorem addToCache_eviction_witness :
    (addToCache demoCache "b" "v" 200).length = 81 ∧
    (keysToDelete (mapSet demoCache "b" ⟨"v", 200⟩)).length = 20 ∧
    (∀ key ∈ keysToDelete (mapSet demoCache "b" ⟨"v", 200⟩), ∀ t,
      (getFromCache (addToCache demoCache "b" "v" 200) key t).1 = none) ∧
    (∀ p ∈ (List.insertionSort entryLE (mapSet demoCache "b" ⟨"v", 200⟩)).take 20,
      ∀ q ∈ addToCache demoCache "b" "v" 200, p.2.timestamp ≤ q.2.timestamp) ∧
    (∀ (c' : Cache) (k' v' : String) (n' : Nat),
      (mapSet c' k' ⟨v', n'⟩).length ≤ 100 →
      addToCache c' k' v' n' = mapSet c' k' ⟨v', n'⟩) :=
  addToCache_eviction demoCache "b" "v" 200 demoCache_keys_nodup
    demoCache_fresh demoCache_length

end M31
